/-
Verification of the task persistence and ordering engine of the `tasker`
repository (src/task.rs, src/presets.rs, src/task_repo.rs, src/webapp.rs).

The SQLite store is embedded as an explicit state (`DB`): one list of rows per
table plus the next generated rowid per table.  Each repository operation is
translated into a pure function on that state, statement by statement:
`INSERT` appends a row carrying the generated id, `UPDATE ... WHERE id = :id`
maps over the rows, `DELETE FROM tasks WHERE completed` filters, and
`ORDER BY completed ASC, priority ASC, description ASC` is an insertion sort
by the corresponding lexicographic comparator.  SQLite compares TEXT values
with the BINARY collation (byte order of the UTF-8 encoding), which on
well-formed strings coincides with lexicographic order of the code points;
`charListLt` below is that order, kept executable so that concrete stores
evaluate inside the kernel.
-/
import Mathlib

namespace Tasker

/-! ## Text ordering (SQLite BINARY collation on TEXT columns) -/

/-- Lexicographic strict order on code-point lists, as a boolean, mirroring
SQLite's BINARY collation used by `ORDER BY` on TEXT columns. -/
def charListLt : List Char → List Char → Bool
  | _, [] => false
  | [], _ :: _ => true
  | a :: as, b :: bs => if a < b then true else if a = b then charListLt as bs else false

/-- Strict order on stored TEXT values. -/
def textLt (s t : String) : Prop := charListLt s.data t.data = true

/-- Reflexive order on stored TEXT values, as SQLite's comparator yields it. -/
def textLe (s t : String) : Prop := charListLt t.data s.data = false

instance : DecidableRel textLt := fun s t =>
  inferInstanceAs (Decidable (charListLt s.data t.data = true))

instance : DecidableRel textLe := fun s t =>
  inferInstanceAs (Decidable (charListLt t.data s.data = false))

/-! ## Task entity (src/task.rs)

The snapshot's `task.rs` lags the rest of the repository: `task_repo.rs` and
`webapp.rs` (and their tests) construct `Task` with an optional `project`
field and call `Task::new(priority, description, project)`, so the entity is
embedded with that field; the priority validation, the sentinel id `-1` and
the saturating priority arithmetic are those of `task.rs`. -/

abbrev TaskId := Int

structure Task where
  id : TaskId
  priority : Char
  description : String
  completed : Bool
  project : Option String
deriving DecidableEq

inductive TaskError where
  | priorityNotInRangeError (c : Char)
deriving DecidableEq

/-- Task::new — rejects a priority outside `'A'..'Z'`, otherwise returns a
brand new, never-persisted task with the sentinel id `-1` and
`completed = false`. -/
def Task.new (priority : Char) (description : String) (project : Option String) :
    Except TaskError Task :=
  if priority < 'A' ∨ priority > 'Z' then
    Except.error (TaskError.priorityNotInRangeError priority)
  else
    Except.ok { id := -1, priority := priority, description := description,
                completed := false, project := project }

/-- Task::increase_priority — does nothing at `'A'`, otherwise moves the
priority one code point toward `'A'`. -/
def Task.increase_priority (t : Task) : Task :=
  if t.priority = 'A' then t
  else { t with priority := Char.ofNat (t.priority.toNat - 1) }

/-- Task::lower_priority — does nothing at `'Z'`, otherwise moves the
priority one code point toward `'Z'`. -/
def Task.lower_priority (t : Task) : Task :=
  if t.priority = 'Z' then t
  else { t with priority := Char.ofNat (t.priority.toNat + 1) }

/-! ## Preset entities (src/presets.rs) -/

abbrev PresetTaskId := Int
abbrev PresetId := Int

structure PresetTask where
  id : PresetTaskId
  preset_id : PresetId
  priority : Char
  description : String
deriving DecidableEq

inductive PresetTaskError where
  | priorityNotInRangeError (c : Char)
deriving DecidableEq

/-- Rust's `char::is_ascii_uppercase`: membership in `'A'..='Z'`. -/
def isAsciiUppercase (c : Char) : Bool := 'A' ≤ c && c ≤ 'Z'

/-- PresetTask::new — rejects a non-ASCII-uppercase priority, otherwise
returns a brand new preset task with the sentinel id `-1`. -/
def PresetTask.new (priority : Char) (description : String) (preset_id : PresetId) :
    Except PresetTaskError PresetTask :=
  if !(isAsciiUppercase priority) then
    Except.error (PresetTaskError.priorityNotInRangeError priority)
  else
    Except.ok { id := -1, preset_id := preset_id, priority := priority,
                description := description }

structure Preset where
  id : PresetId
  name : String
  tasks : List PresetTask
deriving DecidableEq

/-! ## The store (src/task_repo.rs)

A `DB` is the SQLite database state: the rows of the three tables created by
`init_db`, plus the next rowid each `INTEGER PRIMARY KEY` column will
generate. -/

structure TaskRow where
  id : Int
  priority : String
  description : String
  completed : Bool
  project : String
deriving DecidableEq

structure PresetRow where
  id : Int
  name : String
deriving DecidableEq

structure PresetTaskRow where
  id : Int
  preset_id : Int
  priority : String
  description : String
deriving DecidableEq

structure DB where
  tasks : List TaskRow
  presets : List PresetRow
  preset_tasks : List PresetTaskRow
  next_task_id : Int
  next_preset_id : Int
  next_preset_task_id : Int
deriving DecidableEq

/-- TaskRepoError, restricted to the variants the embedded logic can
produce (the connection and statement failures of the SQL driver are
external). -/
inductive TaskRepoError where
  | error (error : String)
  | taskError (original_error : TaskError)
  | presetTaskError (original_error : PresetTaskError)
deriving DecidableEq

def task_not_found_message (task_id : TaskId) : String :=
  "Task " ++ toString task_id ++ " not found in storage"

def preset_not_found_message (preset_name : String) : String :=
  "Preset " ++ preset_name ++ " not found in storage"

/-- TaskRepo::task_from_row — decodes a stored row, failing on an empty
priority field; an empty project column decodes to `None`. -/
def task_from_row (row : TaskRow) : Except TaskRepoError Task :=
  match row.priority.data with
  | [] => Except.error (TaskRepoError.error "Priority in storage was empty")
  | c :: _ =>
    Except.ok { id := row.id, priority := c, description := row.description,
                completed := row.completed,
                project := match row.project.length with
                           | 0 => none
                           | _ + 1 => some row.project }

/-- TaskRepo::preset_task_from_row. -/
def preset_task_from_row (row : PresetTaskRow) : Except TaskRepoError PresetTask :=
  match row.priority.data with
  | [] => Except.error (TaskRepoError.error "Priority in storage was empty")
  | c :: _ =>
    Except.ok { id := row.id, preset_id := row.preset_id, priority := c,
                description := row.description }

/-- The comparator of `ORDER BY completed ASC, priority ASC, description ASC`
on task rows: the stored booleans are 0/1 integers, and the TEXT columns
compare under the BINARY collation. -/
def rowLe (a b : TaskRow) : Prop :=
  (a.completed = false ∧ b.completed = true) ∨
  (a.completed = b.completed ∧ textLt a.priority b.priority) ∨
  (a.completed = b.completed ∧ a.priority = b.priority ∧ textLe a.description b.description)

instance : DecidableRel rowLe := fun a b => by unfold rowLe; infer_instance

/-- Collects decoded rows, stopping at the first decoding error, as Rust's
`collect::<Result<Vec<_>, _>>()` does. -/
def collect_tasks : List TaskRow → Except TaskRepoError (List Task)
  | [] => Except.ok []
  | r :: rest =>
    match task_from_row r with
    | Except.error e => Except.error e
    | Except.ok t =>
      match collect_tasks rest with
      | Except.error e => Except.error e
      | Except.ok ts => Except.ok (t :: ts)

def collect_preset_tasks : List PresetTaskRow → Except TaskRepoError (List PresetTask)
  | [] => Except.ok []
  | r :: rest =>
    match preset_task_from_row r with
    | Except.error e => Except.error e
    | Except.ok t =>
      match collect_preset_tasks rest with
      | Except.error e => Except.error e
      | Except.ok ts => Except.ok (t :: ts)

/-- Rows selected by `get_all_tasks`: the whole table, or the rows whose
project column equals the filter (the `WHERE project = :project` clause is
added only when a filter is present). -/
def selected_rows (db : DB) (project_filter : Option String) : List TaskRow :=
  match project_filter with
  | none => db.tasks
  | some p => db.tasks.filter (fun r => decide (r.project = p))

/-- TaskRepo::get_all_tasks — selects, orders by
`completed ASC, priority ASC, description ASC`, and decodes. -/
def get_all_tasks (db : DB) (project_filter : Option String) :
    Except TaskRepoError (List Task) :=
  collect_tasks (List.insertionSort rowLe (selected_rows db project_filter))

/-- TaskRepo::get_task — first row with the given id, or a not-found error. -/
def get_task (db : DB) (task_id : TaskId) : Except TaskRepoError Task :=
  match db.tasks.find? (fun r => decide (r.id = task_id)) with
  | none => Except.error (TaskRepoError.error (task_not_found_message task_id))
  | some row => task_from_row row

/-- TaskRepo::persist_task — a task carrying the sentinel id is inserted
(the store generates its id, and an absent project is stored as the empty
string); otherwise the row with the task's id has its priority, description
and completed columns updated. -/
def persist_task (db : DB) (task : Task) : DB :=
  if task.id < 0 then
    { db with
      tasks := db.tasks ++
        [{ id := db.next_task_id, priority := Char.toString task.priority,
           description := task.description, completed := task.completed,
           project := task.project.getD "" }],
      next_task_id := db.next_task_id + 1 }
  else
    { db with
      tasks := db.tasks.map (fun r =>
        if r.id = task.id then
          { r with priority := Char.toString task.priority,
                   description := task.description, completed := task.completed }
        else r) }

/-- TaskRepo::persist_preset_task — insert-only: a preset task that was
already persisted is rejected before any statement is run. -/
def persist_preset_task (db : DB) (preset_task : PresetTask) : Except TaskRepoError DB :=
  if preset_task.id < 0 then
    Except.ok
      { db with
        preset_tasks := db.preset_tasks ++
          [{ id := db.next_preset_task_id, preset_id := preset_task.preset_id,
             priority := Char.toString preset_task.priority,
             description := preset_task.description }],
        next_preset_task_id := db.next_preset_task_id + 1 }
  else
    Except.error (TaskRepoError.error
      "Cannot persist a non-new preset task (i.e. preset task update not implemented)")

/-- TaskRepo::cleanup — `DELETE FROM tasks WHERE completed`. -/
def cleanup (db : DB) : DB :=
  { db with tasks := db.tasks.filter (fun r => !r.completed) }

/-- TaskRepo::get_all_projects — `SELECT DISTINCT project FROM tasks WHERE
project != '' ORDER BY project ASC`. -/
def get_all_projects (db : DB) : List String :=
  List.insertionSort textLe
    (((db.tasks.filter (fun r => decide (r.project ≠ ""))).map TaskRow.project).dedup)

/-- TaskRepo::get_preset_id_from_preset_name. -/
def get_preset_id_from_preset_name (db : DB) (preset_name : String) :
    Except TaskRepoError PresetId :=
  match db.presets.find? (fun p => decide (p.name = preset_name)) with
  | none => Except.error (TaskRepoError.error (preset_not_found_message preset_name))
  | some p => Except.ok p.id

/-- TaskRepo::get_preset — resolves the name, then decodes every preset-task
row owned by that preset id. -/
def get_preset (db : DB) (preset_name : String) : Except TaskRepoError Preset :=
  match get_preset_id_from_preset_name db preset_name with
  | Except.error e => Except.error e
  | Except.ok preset_id =>
    match collect_preset_tasks
        (db.preset_tasks.filter (fun r => decide (r.preset_id = preset_id))) with
    | Except.error e => Except.error e
    | Except.ok tasks =>
      Except.ok { id := preset_id, name := preset_name, tasks := tasks }

/-! ## Preset injection (src/webapp.rs, handler `inject_preset`) -/

/-- The body of the injection loop: for each preset task, a brand new `Task`
is created (validating the priority, with the preset name as project) and
persisted; a creation failure is converted by `?` into
`TaskRepoError::TaskError` and aborts the loop. -/
def inject_loop : DB → List PresetTask → String → Except TaskRepoError DB
  | db, [], _ => Except.ok db
  | db, p :: rest, preset_name =>
    match Task.new p.priority p.description (some preset_name) with
    | Except.error e => Except.error (TaskRepoError.taskError e)
    | Except.ok task => inject_loop (persist_task db task) rest preset_name

/-- webapp::inject_preset — loads the preset and persists one new task per
preset task. -/
def inject_preset (db : DB) (preset_name : String) : Except TaskRepoError DB :=
  match get_preset db preset_name with
  | Except.error e => Except.error e
  | Except.ok preset => inject_loop db preset.tasks preset_name

/-! ## Store invariant

Properties every reachable store satisfies: generated ids are non-negative
and below the next id, ids are unique, and each stored priority is the
one-character string written by the persist operations (for preset tasks it
was additionally validated by `PresetTask::new`). -/

def DB.WF (db : DB) : Prop :=
  (∀ r ∈ db.tasks, 0 ≤ r.id ∧ r.id < db.next_task_id ∧ r.priority.length = 1) ∧
  (db.tasks.map TaskRow.id).Nodup ∧
  (∀ r ∈ db.preset_tasks, r.priority.data.head?.any isAsciiUppercase = true)

instance (db : DB) : Decidable db.WF := by unfold DB.WF; infer_instance

instance {ε α : Type} [DecidableEq ε] [DecidableEq α] : DecidableEq (Except ε α) := fun a b =>
  match a, b with
  | Except.ok x, Except.ok y =>
    if h : x = y then isTrue (by rw [h]) else isFalse (by intro hc; cases hc; exact h rfl)
  | Except.error x, Except.error y =>
    if h : x = y then isTrue (by rw [h]) else isFalse (by intro hc; cases hc; exact h rfl)
  | Except.ok _, Except.error _ => isFalse (by intro hc; cases hc)
  | Except.error _, Except.ok _ => isFalse (by intro hc; cases hc)

/-! ## Decoded views and specification orders

`parsedTask` is the value `task_from_row` yields when it succeeds, and
`taskLt`/`taskKeyEq` express, on decoded tasks, the display order the spec
describes: incomplete before completed, then ascending priority letter, then
ascending description. -/

/-- The decoding of a task row whose priority field is non-empty. -/
def parsedTask (r : TaskRow) : Task :=
  { id := r.id, priority := r.priority.data.headD 'A', description := r.description,
    completed := r.completed,
    project := match r.project.length with
               | 0 => none
               | _ + 1 => some r.project }

/-- The decoding of a preset-task row whose priority field is non-empty. -/
def parsedPresetTask (r : PresetTaskRow) : PresetTask :=
  { id := r.id, preset_id := r.preset_id, priority := r.priority.data.headD 'A',
    description := r.description }

/-- The strict display order claimed by the spec, on decoded tasks. -/
def taskLt (a b : Task) : Prop :=
  (a.completed = false ∧ b.completed = true) ∨
  (a.completed = b.completed ∧ a.priority < b.priority) ∨
  (a.completed = b.completed ∧ a.priority = b.priority ∧ textLt a.description b.description)

/-- Agreement on the complete sort key (completion state, priority letter,
description): such tasks are genuinely tied for the display order. -/
def taskKeyEq (a b : Task) : Prop :=
  a.completed = b.completed ∧ a.priority = b.priority ∧ a.description = b.description

instance : DecidableRel taskLt := fun a b => by unfold taskLt; infer_instance

instance : DecidableRel taskKeyEq := fun a b => by unfold taskKeyEq; infer_instance

/-- The task rows `inject_preset` appends: one per preset task, carrying its
priority and description, the preset name as project, `completed = false`,
and consecutive generated ids. -/
def injected_rows : List PresetTask → String → Int → List TaskRow
  | [], _, _ => []
  | p :: rest, preset_name, start_id =>
    { id := start_id, priority := Char.toString p.priority, description := p.description,
      completed := false, project := preset_name } ::
    injected_rows rest preset_name (start_id + 1)

/-! ## Concrete stores used to instantiate the theorems -/

/-- A freshly initialised, empty store. -/
def dbE : DB :=
  { tasks := [], presets := [], preset_tasks := [],
    next_task_id := 1, next_preset_id := 1, next_preset_task_id := 1 }

/-- The four tasks of the spec's ordering example. -/
def db4 : DB :=
  { tasks := [
      ⟨1, "B", "Medium task", false, ""⟩,
      ⟨2, "Z", "Unimportant task", false, ""⟩,
      ⟨3, "A", "Important task", false, ""⟩,
      ⟨4, "A", "Another important task", false, ""⟩],
    presets := [], preset_tasks := [],
    next_task_id := 5, next_preset_id := 1, next_preset_task_id := 1 }

/-- Two stored tasks agreeing on priority, description, completion state and
project, distinguishable only by id. -/
def db_dup : DB :=
  { tasks := [⟨1, "A", "x", false, ""⟩, ⟨2, "A", "x", false, ""⟩],
    presets := [], preset_tasks := [],
    next_task_id := 3, next_preset_id := 1, next_preset_task_id := 1 }

/-- One completed and one pending task. -/
def db_mixed : DB :=
  { tasks := [⟨1, "C", "done", true, ""⟩, ⟨2, "B", "todo", false, ""⟩],
    presets := [], preset_tasks := [],
    next_task_id := 3, next_preset_id := 1, next_preset_task_id := 1 }

/-- One preset with two preset tasks and no tasks. -/
def db_preset : DB :=
  { tasks := [], presets := [⟨1, "daily"⟩],
    preset_tasks := [⟨1, 1, "A", "stand-up"⟩, ⟨2, 1, "C", "mail"⟩],
    next_task_id := 1, next_preset_id := 2, next_preset_task_id := 3 }

/-! ## Properties of the text order -/

theorem charListLt_irrefl : ∀ l : List Char, charListLt l l = false
  | [] => rfl
  | a :: as => by simp [charListLt, lt_irrefl, charListLt_irrefl as]

theorem charListLt_trans : ∀ {l m n : List Char},
    charListLt l m = true → charListLt m n = true → charListLt l n = true
  | _, _, [], _, h2 => by simp [charListLt] at h2
  | l, [], _, h1, _ => by cases l <;> simp [charListLt] at h1
  | [], _ :: _, _ :: _, _, _ => by simp [charListLt]
  | a :: as, b :: bs, c :: cs, h1, h2 => by
    simp only [charListLt] at h1 h2 ⊢
    by_cases hab : a < b
    · by_cases hbc : b < c
      · simp [lt_trans hab hbc]
      · by_cases hbc' : b = c
        · subst hbc'; simp [hab]
        · simp [hbc, hbc'] at h2
    · by_cases hab' : a = b
      · subst hab'
        simp only [if_neg hab, if_pos rfl] at h1
        by_cases hac : a < c
        · simp [hac]
        · by_cases hac' : a = c
          · subst hac'
            simp only [if_neg hac, if_pos rfl] at h2
            simp [if_neg hac, charListLt_trans h1 h2]
          · simp [hac, hac'] at h2
      · simp [hab, hab'] at h1

theorem charListLt_asymm : ∀ {l m : List Char},
    charListLt l m = true → charListLt m l = false
  | _, [], h => by simp [charListLt] at h
  | [], _ :: _, _ => by simp [charListLt]
  | a :: as, b :: bs, h => by
    simp only [charListLt] at h ⊢
    by_cases hab : a < b
    · have hba : ¬ b < a := fun h2 => lt_irrefl a (lt_trans hab h2)
      have hba' : ¬ b = a := fun h2 => lt_irrefl a (h2 ▸ hab)
      simp [hba, hba']
    · by_cases hab' : a = b
      · subst hab'
        simp only [if_neg hab, if_pos rfl] at h ⊢
        exact charListLt_asymm h
      · simp [hab, hab'] at h

theorem charListLt_connex : ∀ {l m : List Char},
    charListLt l m = false → charListLt m l = false → l = m
  | [], [], _, _ => rfl
  | [], _ :: _, h1, _ => by simp [charListLt] at h1
  | _ :: _, [], _, h2 => by simp [charListLt] at h2
  | a :: as, b :: bs, h1, h2 => by
    simp only [charListLt] at h1 h2
    by_cases hab : a < b
    · simp [hab] at h1
    · by_cases hab' : a = b
      · subst hab'
        simp only [if_neg hab, if_pos rfl] at h1 h2
        rw [charListLt_connex h1 h2]
      · by_cases hba : b < a
        · simp [hba] at h2
        · exact absurd (lt_trichotomy a b) (by simp [hab, hab', hba])

theorem textLe_total (s t : String) : textLe s t ∨ textLe t s := by
  unfold textLe
  cases h : charListLt t.data s.data with
  | false => exact Or.inl rfl
  | true => exact Or.inr (charListLt_asymm h)


theorem textLe_trans {a b c : String} (h1 : textLe a b) (h2 : textLe b c) : textLe a c := by
  unfold textLe at h1 h2 ⊢
  by_contra hcontra
  have hca : charListLt c.data a.data = true := by
    cases h : charListLt c.data a.data
    · exact absurd h hcontra
    · rfl
  cases hab : charListLt a.data b.data with
  | true => exact absurd (charListLt_trans hca hab) (by simp [h2])
  | false =>
    have : a.data = b.data := charListLt_connex hab h1
    rw [this] at hca
    exact absurd hca (by simp [h2])

theorem string_data_inj {s t : String} (h : s.data = t.data) : s = t := by
  cases s; cases t; exact congrArg String.mk h

theorem textLe_iff_lt_or_eq {s t : String} : textLe s t ↔ textLt s t ∨ s = t := by
  unfold textLe textLt
  constructor
  · intro h
    cases hst : charListLt s.data t.data with
    | true => exact Or.inl rfl
    | false => exact Or.inr (string_data_inj (charListLt_connex hst h))
  · rintro (h | rfl)
    · exact charListLt_asymm h
    · exact charListLt_irrefl _

theorem charListLt_singleton {a b : Char} : charListLt [a] [b] = true ↔ a < b := by
  by_cases hab : a < b
  · simp [charListLt, hab]
  · by_cases heq : a = b
    · simp [charListLt, hab, heq]
    · simp [charListLt, hab, heq]

theorem textLt_trans {a b c : String} (h1 : textLt a b) (h2 : textLt b c) : textLt a c :=
  charListLt_trans h1 h2

theorem textLt_trichotomy (s t : String) : textLt s t ∨ s = t ∨ textLt t s := by
  unfold textLt
  cases h1 : charListLt s.data t.data with
  | true => exact Or.inl rfl
  | false =>
    cases h2 : charListLt t.data s.data with
    | true => exact Or.inr (Or.inr rfl)
    | false => exact Or.inr (Or.inl (string_data_inj (charListLt_connex h1 h2)))

/-! ## The row comparator is a total preorder -/

theorem rowLe_total (a b : TaskRow) : rowLe a b ∨ rowLe b a := by
  unfold rowLe
  cases ha : a.completed <;> cases hb : b.completed
  case false.true => exact Or.inl (Or.inl ⟨rfl, rfl⟩)
  case true.false => exact Or.inr (Or.inl ⟨rfl, rfl⟩)
  all_goals
    rcases textLt_trichotomy a.priority b.priority with hp | hp | hp
    · exact Or.inl (Or.inr (Or.inl ⟨rfl, hp⟩))
    · rcases textLe_total a.description b.description with hd | hd
      · exact Or.inl (Or.inr (Or.inr ⟨rfl, hp, hd⟩))
      · exact Or.inr (Or.inr (Or.inr ⟨rfl, hp.symm, hd⟩))
    · exact Or.inr (Or.inr (Or.inl ⟨rfl, hp⟩))

theorem rowLe_trans {a b c : TaskRow} (hab : rowLe a b) (hbc : rowLe b c) : rowLe a c := by
  unfold rowLe at hab hbc ⊢
  rcases hab with ⟨ha, hb⟩ | ⟨hab, hp⟩ | ⟨hab, hpe, hd⟩ <;>
    rcases hbc with ⟨hb2, hc⟩ | ⟨hbc, hp2⟩ | ⟨hbc, hpe2, hd2⟩
  · rw [hb] at hb2; cases hb2
  · exact Or.inl ⟨ha, by rw [← hbc]; exact hb⟩
  · exact Or.inl ⟨ha, by rw [← hbc]; exact hb⟩
  · exact Or.inl ⟨by rw [hab]; exact hb2, hc⟩
  · exact Or.inr (Or.inl ⟨hab.trans hbc, textLt_trans hp hp2⟩)
  · exact Or.inr (Or.inl ⟨hab.trans hbc, hpe2 ▸ hp⟩)
  · exact Or.inl ⟨by rw [hab]; exact hb2, hc⟩
  · exact Or.inr (Or.inl ⟨hab.trans hbc, by rw [hpe]; exact hp2⟩)
  · exact Or.inr (Or.inr ⟨hab.trans hbc, hpe.trans hpe2, textLe_trans hd hd2⟩)

/-! ## Decoding lemmas -/

theorem char_toString_data (c : Char) : (Char.toString c).data = [c] := rfl

theorem task_from_row_ok {r : TaskRow} (h : r.priority.data ≠ []) :
    task_from_row r = Except.ok (parsedTask r) := by
  unfold task_from_row parsedTask
  cases hd : r.priority.data with
  | nil => exact absurd hd h
  | cons c rest => simp [hd]

theorem preset_task_from_row_ok {r : PresetTaskRow} (h : r.priority.data ≠ []) :
    preset_task_from_row r = Except.ok (parsedPresetTask r) := by
  unfold preset_task_from_row parsedPresetTask
  cases hd : r.priority.data with
  | nil => exact absurd hd h
  | cons c rest => simp [hd]

theorem collect_tasks_ok {l : List TaskRow} (h : ∀ r ∈ l, r.priority.data ≠ []) :
    collect_tasks l = Except.ok (l.map parsedTask) := by
  induction l with
  | nil => rfl
  | cons r rest ih =>
    rw [List.map_cons]
    unfold collect_tasks
    rw [task_from_row_ok (h r (List.mem_cons_self r rest)),
        ih (fun x hx => h x (List.mem_cons_of_mem r hx))]

theorem collect_preset_tasks_ok {l : List PresetTaskRow} (h : ∀ r ∈ l, r.priority.data ≠ []) :
    collect_preset_tasks l = Except.ok (l.map parsedPresetTask) := by
  induction l with
  | nil => rfl
  | cons r rest ih =>
    rw [List.map_cons]
    unfold collect_preset_tasks
    rw [preset_task_from_row_ok (h r (List.mem_cons_self r rest)),
        ih (fun x hx => h x (List.mem_cons_of_mem r hx))]

theorem singleton_priority_ne_nil {r : TaskRow} (h : r.priority.length = 1) :
    r.priority.data ≠ [] := by
  intro hnil
  have h' : r.priority.data.length = 1 := h
  rw [hnil] at h'
  cases h'

/-! ## Lookup by id under the store invariant -/

theorem find_id_of_mem {l : List TaskRow} (hnd : (l.map TaskRow.id).Nodup) {r : TaskRow}
    (hr : r ∈ l) : l.find? (fun x => decide (x.id = r.id)) = some r := by
  induction l with
  | nil => cases hr
  | cons a rest ih =>
    rw [List.map_cons, List.nodup_cons] at hnd
    rcases List.mem_cons.mp hr with rfl | hr'
    · simp [List.find?_cons_of_pos]
    · have hne : ¬ a.id = r.id := by
        intro he
        exact hnd.1 (he ▸ List.mem_map_of_mem TaskRow.id hr')
      rw [List.find?_cons_of_neg _ (by simpa using hne)]
      exact ih hnd.2 hr'

theorem project_read_back (s : String) :
    (match s.length with
     | 0 => (none : Option String)
     | _ + 1 => some s) = if s = "" then none else some s := by
  cases s with
  | mk data =>
    cases data with
    | nil => rfl
    | cons c cs =>
      have hne : (⟨c :: cs⟩ : String) ≠ "" := by
        intro h
        have h' := congrArg String.data h
        simp at h'
      have hl : (⟨c :: cs⟩ : String).length = cs.length + 1 := rfl
      rw [hl, if_neg hne]

/-! ## Bridging the row comparator and the display order on decoded tasks -/

theorem rowLe_parsed {a b : TaskRow} (ha : a.priority.length = 1)
    (hb : b.priority.length = 1) (h : rowLe a b) :
    taskLt (parsedTask a) (parsedTask b) ∨ taskKeyEq (parsedTask a) (parsedTask b) := by
  have ha' : a.priority.data.length = 1 := ha
  have hb' : b.priority.data.length = 1 := hb
  obtain ⟨x, hx⟩ := List.length_eq_one.mp ha'
  obtain ⟨y, hy⟩ := List.length_eq_one.mp hb'
  have hpa : (parsedTask a).priority = x := by unfold parsedTask; rw [hx]; rfl
  have hpb : (parsedTask b).priority = y := by unfold parsedTask; rw [hy]; rfl
  have hca : (parsedTask a).completed = a.completed := rfl
  have hcb : (parsedTask b).completed = b.completed := rfl
  have hda : (parsedTask a).description = a.description := rfl
  have hdb : (parsedTask b).description = b.description := rfl
  unfold rowLe at h
  unfold taskLt taskKeyEq
  rcases h with ⟨h1, h2⟩ | ⟨he, hp⟩ | ⟨he, hpe, hd⟩
  · exact Or.inl (Or.inl ⟨hca ▸ h1, hcb ▸ h2⟩)
  · unfold textLt at hp
    rw [hx, hy] at hp
    exact Or.inl (Or.inr (Or.inl ⟨by rw [hca, hcb, he],
      by rw [hpa, hpb]; exact charListLt_singleton.mp hp⟩))
  · have hxy : x = y := by
      have := congrArg String.data hpe
      rw [hx, hy] at this
      exact (List.cons.injEq x [] y []).mp this |>.1
    rcases textLe_iff_lt_or_eq.mp hd with hdlt | hdeq
    · exact Or.inl (Or.inr (Or.inr ⟨by rw [hca, hcb, he],
        by rw [hpa, hpb, hxy], by rw [hda, hdb]; exact hdlt⟩))
    · exact Or.inr ⟨by rw [hca, hcb, he], by rw [hpa, hpb, hxy],
        by rw [hda, hdb, hdeq]⟩

/-! ## C1: ordering of `get_all_tasks` -/

/-- C1, counterexample to the claim as stated: two stored tasks that agree on
completion state, priority and description are both returned, yet the claimed
strict display order relates them in neither direction even though they are
distinct tasks — the order is not total on the returned tasks, and the tie
between them is left unresolved. -/
theorem c1_strict_order_counterexample :
    get_all_tasks db_dup none =
      Except.ok [⟨1, 'A', "x", false, none⟩, ⟨2, 'A', "x", false, none⟩] ∧
    ¬ taskLt ⟨1, 'A', "x", false, none⟩ ⟨2, 'A', "x", false, none⟩ ∧
    ¬ taskLt ⟨2, 'A', "x", false, none⟩ ⟨1, 'A', "x", false, none⟩ ∧
    (⟨1, 'A', "x", false, none⟩ : Task) ≠ ⟨2, 'A', "x", false, none⟩ ∧
    ¬ List.Pairwise taskLt
        [(⟨1, 'A', "x", false, none⟩ : Task), ⟨2, 'A', "x", false, none⟩] :=
  ⟨by decide, by decide, by decide, by decide, by decide⟩

/-- C1, amended: on a well-formed store, `get_all_tasks` succeeds and returns
exactly the decoded (optionally project-filtered) tasks, ordered so that each
pair in order is either strictly ordered by the display order — incomplete
before completed, then ascending priority letter, then ascending
description — or agrees on that whole sort key; tasks agreeing on the whole
key are genuinely tied and their relative order is unspecified. -/
theorem c1_get_all_tasks_ordered (db : DB) (pf : Option String) (hwf : db.WF) :
    ∃ ts : List Task,
      get_all_tasks db pf = Except.ok ts ∧
      List.Perm ts ((selected_rows db pf).map parsedTask) ∧
      List.Pairwise (fun a b => taskLt a b ∨ taskKeyEq a b) ts := by
  haveI : IsTotal TaskRow rowLe := ⟨rowLe_total⟩
  haveI : IsTrans TaskRow rowLe := ⟨fun _ _ _ => rowLe_trans⟩
  have hsel : ∀ r ∈ selected_rows db pf, r.priority.length = 1 := by
    intro r hr
    have hmem : r ∈ db.tasks := by
      unfold selected_rows at hr
      cases pf with
      | none => exact hr
      | some p => exact (List.mem_filter.mp hr).1
    exact (hwf.1 r hmem).2.2
  have hperm : List.Perm (List.insertionSort rowLe (selected_rows db pf))
      (selected_rows db pf) := List.perm_insertionSort rowLe _
  have hsort : (List.insertionSort rowLe (selected_rows db pf)).Sorted rowLe :=
    List.sorted_insertionSort rowLe _
  have hmem1 : ∀ r ∈ List.insertionSort rowLe (selected_rows db pf),
      r.priority.length = 1 := fun r hr => hsel r (hperm.mem_iff.mp hr)
  have hne : ∀ r ∈ List.insertionSort rowLe (selected_rows db pf),
      r.priority.data ≠ [] := fun r hr => singleton_priority_ne_nil (hmem1 r hr)
  refine ⟨(List.insertionSort rowLe (selected_rows db pf)).map parsedTask, ?_, ?_, ?_⟩
  · exact collect_tasks_ok hne
  · exact hperm.map parsedTask
  · rw [List.pairwise_map]
    exact hsort.imp_of_mem (fun {a b} hamem hbmem hab =>
      rowLe_parsed (hmem1 a hamem) (hmem1 b hbmem) hab)

/-- C1, witness: the amended theorem applied to the spec's four-task ordering
example returns the expected strictly ordered list. -/
theorem c1_get_all_tasks_ordered_witness :
    db4.WF ∧
    List.Pairwise (fun a b => taskLt a b ∨ taskKeyEq a b)
      [(⟨4, 'A', "Another important task", false, none⟩ : Task),
       ⟨3, 'A', "Important task", false, none⟩,
       ⟨1, 'B', "Medium task", false, none⟩,
       ⟨2, 'Z', "Unimportant task", false, none⟩] := by
  refine ⟨by decide, ?_⟩
  obtain ⟨ts, h1, _, h3⟩ := c1_get_all_tasks_ordered db4 none (by decide)
  have h2 : get_all_tasks db4 none = Except.ok
      [⟨4, 'A', "Another important task", false, none⟩,
       ⟨3, 'A', "Important task", false, none⟩,
       ⟨1, 'B', "Medium task", false, none⟩,
       ⟨2, 'Z', "Unimportant task", false, none⟩] := by decide
  rw [h1] at h2
  injection h2 with h4
  rw [← h4]
  exact h3

/-! ## C2: persist-then-fetch round trip -/

/-- Inserting a task carrying the sentinel id and fetching it back by the
generated id: every field survives except that the project is stored as a
string, identifying an absent project with the empty one. -/
theorem get_persist_new (db : DB) (t : Task) (hwf : db.WF) (ht : t.id < 0) :
    get_task (persist_task db t) db.next_task_id =
      Except.ok { id := db.next_task_id, priority := t.priority,
                  description := t.description, completed := t.completed,
                  project := if t.project.getD "" = "" then none
                             else some (t.project.getD "") } := by
  unfold persist_task
  rw [if_pos ht]
  unfold get_task
  rw [List.find?_append]
  have h1 : db.tasks.find? (fun r => decide (r.id = db.next_task_id)) = none := by
    rw [List.find?_eq_none]
    intro x hx
    simp only [decide_eq_true_eq]
    exact ne_of_lt (hwf.1 x hx).2.1
  rw [h1, Option.none_or, List.find?_cons_of_pos _ (by simp)]
  show task_from_row
      { id := db.next_task_id, priority := Char.toString t.priority,
        description := t.description, completed := t.completed,
        project := t.project.getD "" } = _
  rw [task_from_row_ok (by simp [char_toString_data])]
  unfold parsedTask
  rw [show ({ id := db.next_task_id, priority := Char.toString t.priority,
              description := t.description, completed := t.completed,
              project := t.project.getD "" } : TaskRow).priority.data
      = [t.priority] from rfl]
  rw [show ({ id := db.next_task_id, priority := Char.toString t.priority,
              description := t.description, completed := t.completed,
              project := t.project.getD "" } : TaskRow).project
      = t.project.getD "" from rfl]
  rw [project_read_back]
  rfl

/-- C2, counterexample to the claim as stated: a task created with the valid
priority `'A'` and the project `Some ""` round-trips to a task whose project
is `None`, so the fetched task is not equal to the original in the project
field. -/
theorem c2_roundtrip_counterexample :
    Task.new 'A' "x" (some "") = Except.ok ⟨-1, 'A', "x", false, some ""⟩ ∧
    get_task (persist_task dbE ⟨-1, 'A', "x", false, some ""⟩) dbE.next_task_id =
      Except.ok ⟨1, 'A', "x", false, none⟩ ∧
    (⟨1, 'A', "x", false, none⟩ : Task).project ≠
      (⟨-1, 'A', "x", false, some ""⟩ : Task).project :=
  ⟨by decide, by decide, by decide⟩

/-- C2, amended: persisting a newly created task (valid priority, sentinel id)
and fetching it by the store-generated id yields a task equal to the original
in priority, description and completed; the project also reads back equal,
except that an absent or empty project is stored as the empty string and so
reads back as `None`. -/
theorem c2_roundtrip (db : DB) (c : Char) (d : String) (p : Option String) (t : Task)
    (hwf : db.WF) (hnew : Task.new c d p = Except.ok t) :
    get_task (persist_task db t) db.next_task_id =
      Except.ok { id := db.next_task_id, priority := c, description := d,
                  completed := false,
                  project := if p.getD "" = "" then none else some (p.getD "") } := by
  unfold Task.new at hnew
  split_ifs at hnew with h
  all_goals cases hnew
  exact get_persist_new db ⟨-1, c, d, false, p⟩ hwf (show (-1 : Int) < 0 by decide)

/-- C2, witness: the amended round trip on the empty store, for a task with
priority `'B'` and a real project label. -/
theorem c2_roundtrip_witness :
    dbE.WF ∧
    Task.new 'B' "Medium task" (some "home") =
      Except.ok ⟨-1, 'B', "Medium task", false, some "home"⟩ ∧
    get_task (persist_task dbE ⟨-1, 'B', "Medium task", false, some "home"⟩)
        dbE.next_task_id =
      Except.ok ⟨1, 'B', "Medium task", false, some "home"⟩ :=
  ⟨by decide, by decide,
   c2_roundtrip dbE 'B' "Medium task" (some "home") _ (by decide) (by decide)⟩

/-! ## C3: priority validation at creation -/

/-- C3: for every character in `A..Z`, `Task::new` and `PresetTask::new`
succeed and return the sentinel-id entity carrying exactly that priority;
for every other character both fail with the priority-out-of-range error and
produce no entity. -/
theorem c3_create_validates_priority (c : Char) (d : String) (p : Option String)
    (pid : PresetId) :
    (('A' ≤ c ∧ c ≤ 'Z') →
      Task.new c d p = Except.ok ⟨-1, c, d, false, p⟩ ∧
      PresetTask.new c d pid = Except.ok ⟨-1, pid, c, d⟩) ∧
    (¬ ('A' ≤ c ∧ c ≤ 'Z') →
      Task.new c d p = Except.error (TaskError.priorityNotInRangeError c) ∧
      PresetTask.new c d pid =
        Except.error (PresetTaskError.priorityNotInRangeError c)) := by
  constructor
  · rintro ⟨h1, h2⟩
    have hb : isAsciiUppercase c = true := by
      unfold isAsciiUppercase
      simp [h1, h2]
    constructor
    · unfold Task.new
      rw [if_neg]
      rintro (h' | h')
      · exact absurd h' (not_lt.mpr h1)
      · exact absurd h' (not_lt.mpr h2)
    · unfold PresetTask.new
      rw [hb]
      rfl
  · intro h
    have hout : c < 'A' ∨ c > 'Z' := by
      by_contra hc
      push_neg at hc
      exact h ⟨hc.1, hc.2⟩
    have hb : isAsciiUppercase c = false := by
      unfold isAsciiUppercase
      rcases hout with h' | h'
      · simp [not_le.mpr h']
      · simp [not_le.mpr h']
    constructor
    · unfold Task.new
      rw [if_pos hout]
    · unfold PresetTask.new
      rw [hb]
      rfl

/-- C3, witness: creation succeeds at `'A'` and fails at `'4'`. -/
theorem c3_create_validates_priority_witness :
    (('A' : Char) ≤ 'A' ∧ ('A' : Char) ≤ 'Z') ∧
    ¬ (('A' : Char) ≤ '4' ∧ ('4' : Char) ≤ 'Z') ∧
    Task.new 'A' "d" none = Except.ok ⟨-1, 'A', "d", false, none⟩ ∧
    PresetTask.new '4' "d" 7 =
      Except.error (PresetTaskError.priorityNotInRangeError '4') :=
  ⟨by decide, by decide,
   ((c3_create_validates_priority 'A' "d" none 7).1 (by decide)).1,
   ((c3_create_validates_priority '4' "d" none 7).2 (by decide)).2⟩

/-! ## C4: saturating priority bumps -/

/-- C4: on a task whose priority is a letter, `increase_priority` is a no-op
at `'A'` and otherwise moves to the previous letter; `lower_priority` is a
no-op at `'Z'` and otherwise moves to the next letter; in particular repeated
bumps at either extreme are idempotent, and no bump fails or wraps. -/
theorem c4_priority_bump_saturating (t : Task)
    (h : 'A' ≤ t.priority ∧ t.priority ≤ 'Z') :
    (t.priority = 'A' → t.increase_priority = t) ∧
    (t.priority ≠ 'A' →
      t.increase_priority = { t with priority := Char.ofNat (t.priority.toNat - 1) }) ∧
    (t.priority = 'Z' → t.lower_priority = t) ∧
    (t.priority ≠ 'Z' →
      t.lower_priority = { t with priority := Char.ofNat (t.priority.toNat + 1) }) ∧
    (t.priority = 'A' → t.increase_priority.increase_priority = t.increase_priority) ∧
    (t.priority = 'Z' → t.lower_priority.lower_priority = t.lower_priority) := by
  refine ⟨?_, ?_, ?_, ?_, ?_, ?_⟩
  · intro hA; unfold Task.increase_priority; rw [if_pos hA]
  · intro hA; unfold Task.increase_priority; rw [if_neg hA]
  · intro hZ; unfold Task.lower_priority; rw [if_pos hZ]
  · intro hZ; unfold Task.lower_priority; rw [if_neg hZ]
  · intro hA
    have h1 : t.increase_priority = t := by unfold Task.increase_priority; rw [if_pos hA]
    rw [h1]
    exact h1
  · intro hZ
    have h1 : t.lower_priority = t := by unfold Task.lower_priority; rw [if_pos hZ]
    rw [h1]
    exact h1

/-- C4, witness: a `'B'` task bumps up to `'A'` and down to `'C'`, and a
bump at the top is a no-op. -/
theorem c4_priority_bump_saturating_witness :
    (('A' : Char) ≤ 'B' ∧ ('B' : Char) ≤ 'Z') ∧
    (⟨-1, 'B', "w", false, none⟩ : Task).increase_priority =
      { (⟨-1, 'B', "w", false, none⟩ : Task) with priority := Char.ofNat ('B'.toNat - 1) } ∧
    (⟨-1, 'B', "w", false, none⟩ : Task).lower_priority =
      { (⟨-1, 'B', "w", false, none⟩ : Task) with priority := Char.ofNat ('B'.toNat + 1) } ∧
    (⟨-1, 'A', "w", false, none⟩ : Task).increase_priority = ⟨-1, 'A', "w", false, none⟩ :=
  ⟨by decide,
   (c4_priority_bump_saturating ⟨-1, 'B', "w", false, none⟩ (by decide)).2.1 (by decide),
   (c4_priority_bump_saturating ⟨-1, 'B', "w", false, none⟩ (by decide)).2.2.2.1 (by decide),
   (c4_priority_bump_saturating ⟨-1, 'A', "w", false, none⟩ (by decide)).1 rfl⟩

/-! ## C5: cleanup deletes exactly the completed tasks -/

/-- C5: on a well-formed store, `cleanup` keeps exactly the rows whose
completed flag is false; afterwards `get_task` on the id of any previously
completed task fails with the not-found error, while `get_task` on the id of
any pending task returns exactly what it returned before. -/
theorem c5_cleanup_deletes_completed (db : DB) (hwf : db.WF) :
    (cleanup db).tasks = db.tasks.filter (fun r => !r.completed) ∧
    (∀ r ∈ db.tasks, r.completed = true →
      get_task (cleanup db) r.id =
        Except.error (TaskRepoError.error (task_not_found_message r.id))) ∧
    (∀ r ∈ db.tasks, r.completed = false →
      get_task (cleanup db) r.id = get_task db r.id) := by
  refine ⟨rfl, ?_, ?_⟩
  · intro r hr hc
    unfold get_task cleanup
    have hfind : (db.tasks.filter (fun x => !x.completed)).find?
        (fun x => decide (x.id = r.id)) = none := by
      rw [List.find?_eq_none]
      intro x hx
      simp only [decide_eq_true_eq]
      intro he
      have hx1 := (List.mem_filter.mp hx).1
      have hx2 := (List.mem_filter.mp hx).2
      have hxr : x = r := List.inj_on_of_nodup_map hwf.2.1 hx1 hr he
      rw [hxr, hc] at hx2
      cases hx2
    rw [hfind]
  · intro r hr hc
    unfold get_task cleanup
    have hnd2 : ((db.tasks.filter (fun x => !x.completed)).map TaskRow.id).Nodup :=
      ((List.filter_sublist db.tasks).map TaskRow.id).nodup hwf.2.1
    have hrf : r ∈ db.tasks.filter (fun x => !x.completed) :=
      List.mem_filter.mpr ⟨hr, by rw [hc]; rfl⟩
    rw [find_id_of_mem hnd2 hrf, find_id_of_mem hwf.2.1 hr]

/-- C5, witness: in the store with one completed and one pending task,
cleanup makes the completed id unresolvable and leaves the pending lookup
unchanged. -/
theorem c5_cleanup_deletes_completed_witness :
    db_mixed.WF ∧
    get_task (cleanup db_mixed) 1 =
      Except.error (TaskRepoError.error (task_not_found_message 1)) ∧
    get_task (cleanup db_mixed) 2 = get_task db_mixed 2 :=
  ⟨by decide,
   (c5_cleanup_deletes_completed db_mixed (by decide)).2.1
     ⟨1, "C", "done", true, ""⟩ (by decide) rfl,
   (c5_cleanup_deletes_completed db_mixed (by decide)).2.2
     ⟨2, "B", "todo", false, ""⟩ (by decide) rfl⟩

/-! ## C7: get_task success and failure -/

/-- C7: on a well-formed store, `get_task` returns the decoded stored row
exactly when a row with the requested id exists, and otherwise fails with
the not-found error; in particular it fails on every negative (sentinel) id,
because stored ids are non-negative. -/
theorem c7_get_task_found_iff (db : DB) (tid : TaskId) (hwf : db.WF) :
    ((∃ r ∈ db.tasks, r.id = tid) →
      ∃ r, r ∈ db.tasks ∧ r.id = tid ∧ get_task db tid = Except.ok (parsedTask r)) ∧
    ((¬ ∃ r ∈ db.tasks, r.id = tid) →
      get_task db tid = Except.error (TaskRepoError.error (task_not_found_message tid))) ∧
    (tid < 0 →
      get_task db tid = Except.error (TaskRepoError.error (task_not_found_message tid))) := by
  have hneg : (¬ ∃ r ∈ db.tasks, r.id = tid) →
      get_task db tid = Except.error (TaskRepoError.error (task_not_found_message tid)) := by
    intro h
    unfold get_task
    have hfind : db.tasks.find? (fun x => decide (x.id = tid)) = none := by
      rw [List.find?_eq_none]
      intro x hx
      simp only [decide_eq_true_eq]
      intro he
      exact h ⟨x, hx, he⟩
    rw [hfind]
  refine ⟨?_, hneg, ?_⟩
  · rintro ⟨r0, hr0, hid⟩
    have hs : (db.tasks.find? (fun x => decide (x.id = tid))).isSome := by
      rw [List.find?_isSome]
      exact ⟨r0, hr0, by simp [hid]⟩
    obtain ⟨r, hr⟩ := Option.isSome_iff_exists.mp hs
    have hmem := List.mem_of_find?_eq_some hr
    have hpr : r.id = tid := by
      have h' := List.find?_some hr
      simpa using h'
    refine ⟨r, hmem, hpr, ?_⟩
    unfold get_task
    rw [hr]
    show task_from_row r = _
    exact task_from_row_ok (singleton_priority_ne_nil (hwf.1 r hmem).2.2)
  · intro hlt
    apply hneg
    rintro ⟨r, hr, hid⟩
    have h0 := (hwf.1 r hr).1
    rw [hid] at h0
    exact absurd hlt (not_lt.mpr h0)

/-- C7, witness: looking up the sentinel id `-1` and the absent id `3` both
fail with the not-found error on a well-formed concrete store. -/
theorem c7_get_task_found_iff_witness :
    db_mixed.WF ∧ (-1 : Int) < 0 ∧
    get_task db_mixed (-1) =
      Except.error (TaskRepoError.error (task_not_found_message (-1))) ∧
    get_task db_mixed 3 =
      Except.error (TaskRepoError.error (task_not_found_message 3)) :=
  ⟨by decide, by decide,
   (c7_get_task_found_iff db_mixed (-1) (by decide)).2.2 (by decide),
   (c7_get_task_found_iff db_mixed 3 (by decide)).2.1 (by decide)⟩

/-! ## C8: frame property of the update path of persist_task -/

/-- C8: persisting a task with a non-negative id runs only the `UPDATE`
statement: the preset tables and the id counters are untouched, the id and
project columns of the tasks table are untouched, and the tasks table is the
old one with exactly the rows matching the task's id having their priority,
description and completed columns replaced. -/
theorem c8_update_frame (db : DB) (t : Task) (h : 0 ≤ t.id) :
    (persist_task db t).presets = db.presets ∧
    (persist_task db t).preset_tasks = db.preset_tasks ∧
    (persist_task db t).next_task_id = db.next_task_id ∧
    (persist_task db t).next_preset_id = db.next_preset_id ∧
    (persist_task db t).next_preset_task_id = db.next_preset_task_id ∧
    (persist_task db t).tasks.map TaskRow.id = db.tasks.map TaskRow.id ∧
    (persist_task db t).tasks.map TaskRow.project = db.tasks.map TaskRow.project ∧
    (persist_task db t).tasks = db.tasks.map (fun r =>
      if r.id = t.id then
        { r with priority := Char.toString t.priority, description := t.description,
                 completed := t.completed }
      else r) := by
  have hnot : ¬ t.id < 0 := not_lt.mpr h
  have hup : persist_task db t =
      { db with tasks := db.tasks.map (fun r =>
          if r.id = t.id then
            { r with priority := Char.toString t.priority,
                     description := t.description, completed := t.completed }
          else r) } := by
    unfold persist_task
    rw [if_neg hnot]
  rw [hup]
  refine ⟨rfl, rfl, rfl, rfl, rfl, ?_, ?_, rfl⟩
  · rw [List.map_map]
    apply List.map_congr_left
    intro r _
    by_cases hr : r.id = t.id <;> simp [hr, Function.comp]
  · rw [List.map_map]
    apply List.map_congr_left
    intro r _
    by_cases hr : r.id = t.id <;> simp [hr, Function.comp]

/-- C8, witness: updating the pending task of the mixed store changes its
columns but no id, no project, and no other table. -/
theorem c8_update_frame_witness :
    (0 : Int) ≤ (⟨2, 'A', "new text", true, some "p"⟩ : Task).id ∧
    (persist_task db_mixed ⟨2, 'A', "new text", true, some "p"⟩).tasks.map TaskRow.project =
      db_mixed.tasks.map TaskRow.project ∧
    (persist_task db_mixed ⟨2, 'A', "new text", true, some "p"⟩).tasks.map TaskRow.id =
      db_mixed.tasks.map TaskRow.id :=
  ⟨by decide,
   (c8_update_frame db_mixed ⟨2, 'A', "new text", true, some "p"⟩ (by decide)).2.2.2.2.2.2.1,
   (c8_update_frame db_mixed ⟨2, 'A', "new text", true, some "p"⟩ (by decide)).2.2.2.2.2.1⟩

/-! ## C9: add_preset_task is insert-only -/

/-- C9: `persist_preset_task` with an already-persisted preset task (id ≥ 0)
fails with the unsupported-operation error before any statement runs, so the
store is left untouched; with the sentinel id it inserts exactly one new
preset-task row carrying the generated id. -/
theorem c9_preset_task_insert_only (db : DB) (pt : PresetTask) :
    (0 ≤ pt.id →
      persist_preset_task db pt = Except.error (TaskRepoError.error
        "Cannot persist a non-new preset task (i.e. preset task update not implemented)")) ∧
    (pt.id < 0 →
      persist_preset_task db pt = Except.ok
        { db with
          preset_tasks := db.preset_tasks ++
            [{ id := db.next_preset_task_id, preset_id := pt.preset_id,
               priority := Char.toString pt.priority, description := pt.description }],
          next_preset_task_id := db.next_preset_task_id + 1 }) := by
  constructor
  · intro h
    unfold persist_preset_task
    rw [if_neg (not_lt.mpr h)]
  · intro h
    unfold persist_preset_task
    rw [if_pos h]

/-- C9, witness: the rejection on a persisted id and the insert on the
sentinel id, on the empty store. -/
theorem c9_preset_task_insert_only_witness :
    (0 : Int) ≤ (⟨5, 1, 'A', "x"⟩ : PresetTask).id ∧
    persist_preset_task dbE ⟨5, 1, 'A', "x"⟩ = Except.error (TaskRepoError.error
      "Cannot persist a non-new preset task (i.e. preset task update not implemented)") ∧
    (⟨-1, 1, 'A', "x"⟩ : PresetTask).id < 0 ∧
    persist_preset_task dbE ⟨-1, 1, 'A', "x"⟩ = Except.ok
      { dbE with preset_tasks := [⟨1, 1, "A", "x"⟩], next_preset_task_id := 2 } :=
  ⟨by decide,
   (c9_preset_task_insert_only dbE ⟨5, 1, 'A', "x"⟩).1 (by decide),
   by decide,
   (c9_preset_task_insert_only dbE ⟨-1, 1, 'A', "x"⟩).2 (by decide)⟩

/-! ## C10: absent and empty projects are identified at the store boundary -/

/-- C10: inserting a task with no project stores the empty string in the
project column; decoding a row yields `None` exactly when the stored project
is empty; hence a new task persisted with project `Some ""` is read back with
project `None`; and the empty label never appears in `get_all_projects`. -/
theorem c10_project_empty_identified (db : DB) (t : Task) (r : TaskRow)
    (hwf : db.WF) (ht : t.id < 0) :
    (t.project = none →
      (persist_task db t).tasks = db.tasks ++
        [{ id := db.next_task_id, priority := Char.toString t.priority,
           description := t.description, completed := t.completed, project := "" }]) ∧
    (∀ t', task_from_row r = Except.ok t' → (t'.project = none ↔ r.project = "")) ∧
    (t.project = some "" →
      get_task (persist_task db t) db.next_task_id =
        Except.ok { id := db.next_task_id, priority := t.priority,
                    description := t.description, completed := t.completed,
                    project := none }) ∧
    "" ∉ get_all_projects db := by
  refine ⟨?_, ?_, ?_, ?_⟩
  · intro hp
    unfold persist_task
    rw [if_pos ht, hp]
    rfl
  · intro t' ht'
    unfold task_from_row at ht'
    cases hd : r.priority.data with
    | nil => rw [hd] at ht'; cases ht'
    | cons c rest =>
      rw [hd] at ht'
      injection ht' with h2
      rw [← h2]
      show (match r.project.length with
            | 0 => (none : Option String)
            | _ + 1 => some r.project) = none ↔ r.project = ""
      rw [project_read_back]
      by_cases hp : r.project = ""
      · simp [hp]
      · simp [hp]
  · intro hp
    have h1 := get_persist_new db t hwf ht
    rw [hp] at h1
    simpa using h1
  · intro hmem
    unfold get_all_projects at hmem
    have hmem2 : "" ∈ ((db.tasks.filter (fun r => decide (r.project ≠ ""))).map
        TaskRow.project).dedup :=
      (List.perm_insertionSort textLe _).mem_iff.mp hmem
    rw [List.mem_dedup] at hmem2
    obtain ⟨x, hx, hxp⟩ := List.mem_map.mp hmem2
    have hx2 := (List.mem_filter.mp hx).2
    rw [hxp] at hx2
    simp at hx2

/-- C10, witness: on the four-task store, persisting a task with project
`Some ""` reads back with project `None`, and the project list contains no
empty label. -/
theorem c10_project_empty_identified_witness :
    db4.WF ∧ (⟨-1, 'A', "x", false, some ""⟩ : Task).id < 0 ∧
    get_task (persist_task db4 ⟨-1, 'A', "x", false, some ""⟩) db4.next_task_id =
      Except.ok ⟨5, 'A', "x", false, none⟩ ∧
    "" ∉ get_all_projects db4 :=
  ⟨by decide, by decide,
   (c10_project_empty_identified db4 ⟨-1, 'A', "x", false, some ""⟩
     ⟨0, "A", "y", false, ""⟩ (by decide) (by decide)).2.2.1 rfl,
   (c10_project_empty_identified db4 ⟨-1, 'A', "x", false, some ""⟩
     ⟨0, "A", "y", false, ""⟩ (by decide) (by decide)).2.2.2⟩

/-! ## C6: preset injection -/

/-- On a well-formed store every stored preset task decodes to a priority
letter in `A..Z` (it was validated by `PresetTask::new` before insertion),
and its stored priority text is non-empty. -/
theorem parsed_preset_priority_bounds {db : DB} (hwf : db.WF) {r : PresetTaskRow}
    (hr : r ∈ db.preset_tasks) :
    'A' ≤ (parsedPresetTask r).priority ∧ (parsedPresetTask r).priority ≤ 'Z' ∧
    r.priority.data ≠ [] := by
  have h := hwf.2.2 r hr
  cases hd : r.priority.data with
  | nil => rw [hd] at h; cases h
  | cons c rest =>
    rw [hd] at h
    have h2 : isAsciiUppercase c = true := by simpa using h
    unfold isAsciiUppercase at h2
    rw [Bool.and_eq_true] at h2
    have hA : 'A' ≤ c := of_decide_eq_true h2.1
    have hZ : c ≤ 'Z' := of_decide_eq_true h2.2
    refine ⟨?_, ?_, by simp⟩
    · show 'A' ≤ r.priority.data.headD 'A'
      rw [hd]
      exact hA
    · show r.priority.data.headD 'A' ≤ 'Z'
      rw [hd]
      exact hZ

/-- Running the injection loop over preset tasks whose priorities are letters
inserts exactly the corresponding new task rows, with consecutive generated
ids, and touches nothing else. -/
theorem inject_loop_ok (l : List PresetTask) : ∀ (acc : DB) (preset_name : String),
    (∀ p ∈ l, 'A' ≤ p.priority ∧ p.priority ≤ 'Z') →
    inject_loop acc l preset_name = Except.ok
      { acc with tasks := acc.tasks ++ injected_rows l preset_name acc.next_task_id,
                 next_task_id := acc.next_task_id + l.length } := by
  induction l with
  | nil =>
    intro acc preset_name _
    simp [inject_loop, injected_rows]
  | cons p rest ih =>
    intro acc preset_name h
    have hp := h p (List.mem_cons_self p rest)
    have hnew : Task.new p.priority p.description (some preset_name) =
        Except.ok ⟨-1, p.priority, p.description, false, some preset_name⟩ := by
      unfold Task.new
      rw [if_neg]
      rintro (h' | h')
      · exact absurd h' (not_lt.mpr hp.1)
      · exact absurd h' (not_lt.mpr hp.2)
    show (match Task.new p.priority p.description (some preset_name) with
          | Except.error e => Except.error (TaskRepoError.taskError e)
          | Except.ok task => inject_loop (persist_task acc task) rest preset_name) = _
    rw [hnew]
    show inject_loop
        (persist_task acc ⟨-1, p.priority, p.description, false, some preset_name⟩)
        rest preset_name = _
    rw [ih _ preset_name (fun q hq => h q (List.mem_cons_of_mem p hq))]
    have hpersist : persist_task acc ⟨-1, p.priority, p.description, false, some preset_name⟩ =
        { acc with
          tasks := acc.tasks ++
            [⟨acc.next_task_id, Char.toString p.priority, p.description, false, preset_name⟩],
          next_task_id := acc.next_task_id + 1 } := by
      unfold persist_task
      rw [if_pos (show (-1 : Int) < 0 by decide)]
      rfl
    rw [hpersist]
    simp only [Except.ok.injEq, DB.mk.injEq, injected_rows, List.cons_append,
      List.nil_append, List.append_assoc, List.singleton_append, List.length_cons,
      and_true, true_and]
    push_cast
    ring

/-- C6: for every preset name that resolves to a stored preset id,
`inject_preset` succeeds, decoding that preset's tasks and appending exactly
one brand-new task row per preset task — carrying the preset task's priority
and description, the preset's name as the task's project, and a fresh
generated id — while the presets and preset-tasks tables are left
unmodified (the resulting store differs only in `tasks` and the task id
counter). -/
theorem c6_inject_preset_spec (db : DB) (preset_name : String) (pid : PresetId)
    (hwf : db.WF)
    (hres : get_preset_id_from_preset_name db preset_name = Except.ok pid) :
    ∃ pts : List PresetTask,
      collect_preset_tasks (db.preset_tasks.filter (fun r => decide (r.preset_id = pid))) =
        Except.ok pts ∧
      pts.length = (db.preset_tasks.filter (fun r => decide (r.preset_id = pid))).length ∧
      inject_preset db preset_name = Except.ok
        { db with tasks := db.tasks ++ injected_rows pts preset_name db.next_task_id,
                  next_task_id := db.next_task_id + pts.length } := by
  have hmemf : ∀ r ∈ db.preset_tasks.filter (fun r => decide (r.preset_id = pid)),
      r ∈ db.preset_tasks := fun r hr => (List.mem_filter.mp hr).1
  have hne : ∀ r ∈ db.preset_tasks.filter (fun r => decide (r.preset_id = pid)),
      r.priority.data ≠ [] := fun r hr =>
    (parsed_preset_priority_bounds hwf (hmemf r hr)).2.2
  have hcol := collect_preset_tasks_ok hne
  refine ⟨(db.preset_tasks.filter (fun r => decide (r.preset_id = pid))).map parsedPresetTask,
    hcol, by rw [List.length_map], ?_⟩
  have hget : get_preset db preset_name = Except.ok
      { id := pid, name := preset_name,
        tasks := (db.preset_tasks.filter (fun r => decide (r.preset_id = pid))).map
          parsedPresetTask } := by
    unfold get_preset
    rw [hres]
    show (match collect_preset_tasks
            (db.preset_tasks.filter (fun r => decide (r.preset_id = pid))) with
          | Except.error e => Except.error e
          | Except.ok tasks =>
            Except.ok ({ id := pid, name := preset_name, tasks := tasks } : Preset)) = _
    rw [hcol]
  unfold inject_preset
  rw [hget]
  show inject_loop db
      ((db.preset_tasks.filter (fun r => decide (r.preset_id = pid))).map parsedPresetTask)
      preset_name = _
  rw [inject_loop_ok _ db preset_name (fun p hp => by
    obtain ⟨r, hr, hpr⟩ := List.mem_map.mp hp
    rw [← hpr]
    exact ⟨(parsed_preset_priority_bounds hwf (hmemf r hr)).1,
           (parsed_preset_priority_bounds hwf (hmemf r hr)).2.1⟩)]

/-- C6, witness: injecting the two-task preset `"daily"` into the empty task
table creates exactly its two tasks, both under project `"daily"`, and leaves
the preset tables untouched. -/
theorem c6_inject_preset_spec_witness :
    db_preset.WF ∧
    inject_preset db_preset "daily" = Except.ok
      { db_preset with
        tasks := [⟨1, "A", "stand-up", false, "daily"⟩, ⟨2, "C", "mail", false, "daily"⟩],
        next_task_id := 3 } := by
  refine ⟨by decide, ?_⟩
  obtain ⟨pts, h1, _, h3⟩ := c6_inject_preset_spec db_preset "daily" 1 (by decide) (by decide)
  have hc : collect_preset_tasks
      (db_preset.preset_tasks.filter (fun r => decide (r.preset_id = 1))) =
      Except.ok [⟨1, 1, 'A', "stand-up"⟩, ⟨2, 1, 'C', "mail"⟩] := by decide
  rw [h1] at hc
  injection hc with h4
  rw [h4] at h3
  rw [h3]
  decide

end Tasker
